import Mathlib

/-!
Verification of `scripts/visualize_aftershocks.py` (1979 UK earthquake
aftershock visualization).

The script is embedded shallowly:

* an `Event` is one row of the loaded catalog (numeric columns as exact
  rationals, the derived `datetime` column as an integer timestamp key);
* each `create_*` plotting function is embedded as a pure function from a
  catalog to a description of the data it draws; functions that raise on
  some inputs (empty catalog) return `Option`;
* the numpy / pandas library calls are modelled by their documented exact
  semantics: `np.arange` produces `start + k*step` for
  `k < ⌈(stop-start)/step⌉`, `np.histogram` with an explicit edge sequence
  counts each value into half-open bins `[e_i, e_{i+1})` with the last bin
  closed, `np.cumsum` is the prefix-sum, `df.sort_values` returns a sorted
  copy, and `pd.read_csv(comment='#')` drops comment lines.  Floating point
  is modelled by exact rational arithmetic (every literal in the script,
  including the bin step `0.2`, is taken exactly).
* `pd.read_csv` / `pd.to_datetime` for the loader are modelled over lines of
  characters, with a `datetime` parser for the `YYYY-MM-DD HH:MM:SS` shape
  that combines the `date` and `time` fields.
-/

namespace Aftershocks

/-- One row of the aftershock catalog after loading: the numeric columns
`latitude`, `longitude`, `depth_km`, `magnitude` and the derived combined
`datetime` column (an integer timestamp key, ordered chronologically). -/
structure Event where
  latitude : ℚ
  longitude : ℚ
  depth_km : ℚ
  magnitude : ℚ
  datetime : ℤ
deriving DecidableEq

/-- A catalog is the ordered sequence of loaded event rows (file order). -/
abbrev Catalog := List Event

/-- Model of `ndarray.min()` / `Series.min()`; only meaningful on a
non-empty list (numpy raises on an empty array, which callers model by
returning `none` before reaching this). -/
def npMin : List ℚ → ℚ
  | [] => 0
  | [a] => a
  | a :: b :: t => min a (npMin (b :: t))

/-- Model of `ndarray.max()` / `Series.max()` on a non-empty list. -/
def npMax : List ℚ → ℚ
  | [] => 0
  | [a] => a
  | a :: b :: t => max a (npMax (b :: t))

/-- Exact-arithmetic model of `np.arange(start, stop, step)` for a positive
step: the values `start + k*step` for `k < ⌈(stop-start)/step⌉`.  The stop
value itself is excluded. -/
def arange (start stop step : ℚ) : List ℚ :=
  (List.range (⌈(stop - start) / step⌉.toNat)).map (fun (k : ℕ) => start + (k : ℚ) * step)

/-- Model of the count `np.histogram` assigns to bin `i` given the explicit
edge sequence `edges`: values are counted into the half-open bin
`[edges[i], edges[i+1])`, except that the last bin is closed on the right. -/
def histBinCount (values edges : List ℚ) (i : ℕ) : ℕ :=
  values.countP (fun v =>
    decide (edges.getD i 0 ≤ v) &&
      (if i + 2 < edges.length then decide (v < edges.getD (i + 1) 0)
       else decide (v ≤ edges.getD (i + 1) 0)))

/-- Model of `np.histogram(values, bins=edges).0`: one count per bin; an
edge sequence of length `m` yields `m - 1` bins. -/
def histogram (values edges : List ℚ) : List ℕ :=
  (List.range (edges.length - 1)).map (fun i => histBinCount values edges i)

/-- Model of `np.cumsum`: running prefix sums, same length as the input. -/
def cumsum : List ℕ → List ℕ
  | [] => []
  | a :: t => a :: (cumsum t).map (fun x => a + x)

/-- The reversed cumulative sum `np.cumsum(hist[::-1])[::-1]` used for the
Gutenberg-Richter curve: entry `i` accumulates the bins from `i` upward. -/
def revCumsum (l : List ℕ) : List ℕ :=
  (cumsum l.reverse).reverse

/-- The data drawn by `create_map_plot`: the projection/extent choice made
from cartopy availability, the scatter arrays, and the highlighted main
shock (position and the magnitude printed in its label). -/
structure MapPlot where
  projection : Bool
  extent : Option (ℚ × ℚ × ℚ × ℚ)
  xs : List ℚ
  ys : List ℚ
  colors : List ℚ
  sizes : List ℚ
  main_lon : ℚ
  main_lat : ℚ
  main_mag : ℚ
deriving DecidableEq

/-- Embedding of `create_map_plot(df)`.  The scatter uses
`(longitude, latitude)`, color `depth_km` and size `magnitude**3 * 10`.
The main shock is `df[df['magnitude'] == df['magnitude'].max()].iloc[0]`,
the first row attaining the maximum magnitude; `.iloc[0]` raises on an
empty catalog, modelled by `none`.  When cartopy is available the axes use
the `PlateCarree` projection with extent `[-3, 0, 53.5, 55.5]`. -/
def create_map_plot (cartopy_available : Bool) (df : Catalog) : Option MapPlot :=
  match (df.filter (fun e => decide (e.magnitude = npMax (df.map Event.magnitude)))).head? with
  | none => none
  | some main_shock =>
    some { projection := cartopy_available
           extent := if cartopy_available then some (-3, 0, 53.5, 55.5) else none
           xs := df.map Event.longitude
           ys := df.map Event.latitude
           colors := df.map Event.depth_km
           sizes := df.map (fun e => e.magnitude ^ 3 * 10)
           main_lon := main_shock.longitude
           main_lat := main_shock.latitude
           main_mag := main_shock.magnitude }

/-- The data drawn by `create_depth_profile`: depth vs longitude and depth
vs latitude, color and size encoding magnitude. -/
structure DepthProfilePlot where
  x1 : List ℚ
  y1 : List ℚ
  c1 : List ℚ
  s1 : List ℚ
  x2 : List ℚ
  y2 : List ℚ
  c2 : List ℚ
  s2 : List ℚ
deriving DecidableEq

/-- Embedding of `create_depth_profile(df)`. -/
def create_depth_profile (df : Catalog) : DepthProfilePlot :=
  { x1 := df.map Event.longitude
    y1 := df.map Event.depth_km
    c1 := df.map Event.magnitude
    s1 := df.map (fun e => e.magnitude ^ 2 * 20)
    x2 := df.map Event.latitude
    y2 := df.map Event.depth_km
    c2 := df.map Event.magnitude
    s2 := df.map (fun e => e.magnitude ^ 2 * 20) }

/-- Model of `df.sort_values('datetime')`: a copy of the catalog sorted
ascending by the `datetime` column (ties in unspecified order). -/
def sort_values_datetime (df : Catalog) : Catalog :=
  df.mergeSort (fun a b => decide (a.datetime ≤ b.datetime))

/-- The data drawn by `create_time_series`: the top magnitude-vs-time
scatter and the bottom cumulative-count curve. -/
structure TimeSeriesPlot where
  topX : List ℤ
  topY : List ℚ
  topC : List ℚ
  topS : List ℚ
  bottomX : List ℤ
  bottomY : List ℕ
deriving DecidableEq

/-- Embedding of `create_time_series(df)`.  `df.sort_values('datetime')`
returns a new sorted frame `df_sorted`; the `cumulative_count` column
`range(1, len(df_sorted) + 1)` is then added to that copy only.  The second
component is the caller's frame after the call: the function never writes
to `df`, so it is returned unchanged. -/
def create_time_series (df : Catalog) : TimeSeriesPlot × Catalog :=
  let df_sorted := sort_values_datetime df
  let cumulative_count := List.range' 1 df_sorted.length
  ({ topX := df.map Event.datetime
     topY := df.map Event.magnitude
     topC := df.map Event.depth_km
     topS := df.map (fun e => e.magnitude ^ 2 * 15)
     bottomX := df_sorted.map Event.datetime
     bottomY := cumulative_count }, df)

/-- The data drawn by `create_magnitude_frequency`: the bin edge sequence,
the per-bin counts, the bin centers, and the reversed-cumulative counts. -/
structure MagFreqPlot where
  bins : List ℚ
  hist : List ℕ
  bin_centers : List ℚ
  cum_counts : List ℕ
deriving DecidableEq

/-- The bin edge sequence built by `create_magnitude_frequency`:
`np.arange(np.floor(min) - 0.5, np.ceil(max) + 0.5, 0.2)` over the
magnitude column. -/
def binEdges (df : Catalog) : List ℚ :=
  let magnitudes := df.map Event.magnitude
  let min_mag : ℚ := (⌊npMin magnitudes⌋ : ℤ)
  let max_mag : ℚ := (⌈npMax magnitudes⌉ : ℤ)
  arange (min_mag - 1/2) (max_mag + 1/2) (1/5)

/-- The first bin edge `np.floor(magnitudes.min()) - 0.5`. -/
def lowEdge (df : Catalog) : ℚ :=
  (⌊npMin (df.map Event.magnitude)⌋ : ℚ) - 1/2

/-- The number of bin edges `np.arange` produces for the catalog:
`5 * (ceil(max) - floor(min) + 1)` edges of pitch `0.2` starting at
`floor(min) - 0.5`. -/
def numEdges (df : Catalog) : ℕ :=
  (5 * (⌈npMax (df.map Event.magnitude)⌉ - ⌊npMin (df.map Event.magnitude)⌋ + 1)).toNat

/-- Embedding of `create_magnitude_frequency(df)`.  `magnitudes.min()`
raises on an empty catalog, modelled by `none`.  Otherwise the per-bin
counts are `np.histogram(magnitudes, bins)`, the centers average adjacent
edges, and `cum_counts = np.cumsum(hist[::-1])[::-1]`. -/
def create_magnitude_frequency (df : Catalog) : Option MagFreqPlot :=
  if df.isEmpty then none
  else
    let magnitudes := df.map Event.magnitude
    let bins := binEdges df
    let hist := histogram magnitudes bins
    some { bins := bins
           hist := hist
           bin_centers := List.zipWith (fun a b => (a + b) / 2) bins.dropLast bins.tail
           cum_counts := revCumsum hist }

/-- Model of the module-level cartopy import guard: the resulting
`CARTOPY_AVAILABLE` flag together with the warning lines printed.  A
failing import is caught; it never aborts the program. -/
def cartopy_import (available : Bool) : Bool × List String :=
  if available then (true, [])
  else (false, ["Warning: cartopy not available. Map plots will use simple scatter."])

/-- The four renderer invocations of `main`, in program order, threading
through the catalog object the caller continues to hold after each call. -/
def main_render (cartopy_available : Bool) (df : Catalog) :
    (Option MapPlot × DepthProfilePlot × TimeSeriesPlot × Option MagFreqPlot) × Catalog :=
  let m := create_map_plot cartopy_available df
  let d := create_depth_profile df
  let (t, df1) := create_time_series df
  let f := create_magnitude_frequency df1
  ((m, d, t, f), df1)

/-- The scatter data of a map plot with the projection and extent fields
stripped: everything the map renderer draws that is not the projection
choice. -/
def mapPlotData (p : MapPlot) : List ℚ × List ℚ × List ℚ × List ℚ × ℚ × ℚ × ℚ :=
  (p.xs, p.ys, p.colors, p.sizes, p.main_lon, p.main_lat, p.main_mag)

/-- The literal five-row catalog with magnitudes `[2.0, 2.5, 3.0, 3.0, 4.1]`
used as the concrete test catalog. -/
def litCatalog : Catalog :=
  [{ latitude := 54.0, longitude := -1.8, depth_km := 8, magnitude := 2.0, datetime := 0 },
   { latitude := 54.1, longitude := -1.7, depth_km := 10, magnitude := 2.5, datetime := 1 },
   { latitude := 54.2, longitude := -1.6, depth_km := 12, magnitude := 3.0, datetime := 2 },
   { latitude := 54.0, longitude := -1.5, depth_km := 9, magnitude := 3.0, datetime := 3 },
   { latitude := 54.1, longitude := -1.9, depth_km := 11, magnitude := 4.1, datetime := 4 }]

/-- Structural splitter on a separator character (model of the comma /
dash / colon field splitting the loader's csv and datetime parsing do). -/
def splitOnChar (sep : Char) : List Char → List (List Char)
  | [] => [[]]
  | c :: rest =>
    let r := splitOnChar sep rest
    if c = sep then [] :: r
    else
      match r with
      | [] => [[c]]
      | g :: gs => (c :: g) :: gs

/-- Split a string into fields on a separator character. -/
def splitFields (sep : Char) (s : String) : List String :=
  (splitOnChar sep s.data).map (fun cs => String.mk cs)

/-- A line is a comment line when its first character is the `'#'` comment
marker passed to `pd.read_csv`. -/
def isCommentLine (s : String) : Bool :=
  match s.data with
  | [] => false
  | c :: _ => c = '#'

/-- Parse a non-empty all-digit character list as a natural number. -/
def digitsToNat? (cs : List Char) : Option ℕ :=
  if cs ≠ [] ∧ cs.all Char.isDigit then
    some (cs.foldl (fun acc c => acc * 10 + (c.toNat - '0'.toNat)) 0)
  else none

/-- Parse a decimal field of a csv row. -/
def fieldToNat? (s : String) : Option ℕ := digitsToNat? s.data

/-- Model of `pd.to_datetime` on the combined `date + ' ' + time` string:
parses `YYYY-MM-DD HH:MM:SS` into a single integer timestamp key that is
ordered chronologically, `none` when the string is not of that shape. -/
def parseDT (s : String) : Option ℤ :=
  match splitFields ' ' s with
  | [d, t] =>
    match splitFields '-' d, splitFields ':' t with
    | [ys, ms, ds], [hs, mins, ss] => do
      let y ← fieldToNat? ys
      let mo ← fieldToNat? ms
      let da ← fieldToNat? ds
      let hh ← fieldToNat? hs
      let mi ← fieldToNat? mins
      let se ← fieldToNat? ss
      if 1 ≤ mo ∧ mo ≤ 12 ∧ 1 ≤ da ∧ da ≤ 31 ∧ hh < 24 ∧ mi < 60 ∧ se < 60 then
        some ((((((y : ℤ) * 12 + mo) * 31 + da) * 24 + hh) * 60 + mi) * 60 + se)
      else none
    | _, _ => none
  | _ => none

/-- The tabular value `load_aftershock_data` returns: the column names
(including the derived `datetime` column), the raw rows, and the parsed
per-row timestamps of the `datetime` column. -/
structure LoadedFrame where
  cols : List String
  rows : List (List String)
  datetimes : List ℤ
deriving DecidableEq

/-- The datetime-derivation step of the loader, keyed on the looked-up
positions of the `date` and `time` columns: `df['date'] + ' ' + df['time']`
raises a `KeyError` when either column is absent, and `pd.to_datetime`
raises when some combined field does not parse. -/
def load_with_idx (cols : List String) (rows : List (List String)) :
    Option ℕ → Option ℕ → Except String LoadedFrame
  | some di, some ti =>
    let dts := rows.map (fun r =>
      parseDT ((r.getD di (String.mk [])) ++ (String.mk [' ']) ++ (r.getD ti (String.mk []))))
    if dts.all (fun o => o.isSome) then
      Except.ok { cols := cols ++ ["datetime"]
                  rows := rows
                  datetimes := dts.map (fun o => o.getD 0) }
    else Except.error ("ParseError: unparsable datetime")
  | _, _ => Except.error ("KeyError: date or time column missing")

/-- The loader applied to the non-comment lines of the file: the first
line is the header, the rest are data rows; `pd.read_csv` performs no
validation of which columns are present. -/
def load_from_body : List String → Except String LoadedFrame
  | [] => Except.error ("EmptyDataError: no columns to parse from file")
  | header :: dataLines =>
    let cols := splitFields ',' header
    load_with_idx cols (dataLines.map (fun l => splitFields ',' l))
      (cols.findIdx? (fun c => c == "date")) (cols.findIdx? (fun c => c == "time"))

/-- Embedding of `load_aftershock_data(filepath)` over the lines of the
file.  `pd.read_csv(comment='#')` drops comment lines, then the combined
`datetime` column is derived; no other column is touched at load time. -/
def load_aftershock_data (lines : List String) : Except String LoadedFrame :=
  load_from_body (lines.filter (fun l => !(isCommentLine l)))

/-- A concrete input file that is missing only the `latitude` column. -/
def noLatitudeLines : List String :=
  ["date,time,longitude,depth_km,magnitude",
   "1979-12-26,03:56:00,-1.5,10.0,4.7"]

/-- A concrete well-formed input file: one comment line, a header with all
six required columns, and two data rows. -/
def sampleLines : List String :=
  ["# 1979 UK aftershock catalog",
   "date,time,latitude,longitude,depth_km,magnitude",
   "1979-12-26,03:56:00,54.1,-1.5,10.0,4.7",
   "1979-12-26,04:10:30,54.2,-1.6,8.5,2.1"]

/-- A concrete input file whose header is missing the `date` column. -/
def noDateLines : List String :=
  ["time,latitude,longitude,depth_km,magnitude",
   "03:56:00,54.1,-1.5,10.0,4.7"]

/-! ### Basic facts about the min / max models -/

theorem le_npMax_of_mem : ∀ {l : List ℚ} {v : ℚ}, v ∈ l → v ≤ npMax l
  | [a], v, h => by
    rcases List.mem_singleton.mp h with rfl
    simp [npMax]
  | a :: b :: t, v, h => by
    rw [npMax]
    rcases List.mem_cons.mp h with rfl | h2
    · exact le_max_left _ _
    · exact le_trans (le_npMax_of_mem h2) (le_max_right _ _)

theorem npMax_mem : ∀ {l : List ℚ}, l ≠ [] → npMax l ∈ l
  | [a], _ => by simp [npMax]
  | a :: b :: t, _ => by
    rw [npMax]
    rcases le_total a (npMax (b :: t)) with h | h
    · rw [max_eq_right h]
      exact List.mem_cons_of_mem a (npMax_mem (List.cons_ne_nil _ _))
    · rw [max_eq_left h]
      exact List.mem_cons_self a _

theorem npMin_le_of_mem : ∀ {l : List ℚ} {v : ℚ}, v ∈ l → npMin l ≤ v
  | [a], v, h => by
    rcases List.mem_singleton.mp h with rfl
    simp [npMin]
  | a :: b :: t, v, h => by
    rw [npMin]
    rcases List.mem_cons.mp h with rfl | h2
    · exact min_le_left _ _
    · exact le_trans (min_le_right _ _) (npMin_le_of_mem h2)

/-- On a non-empty catalog the main-shock filter of `create_map_plot` is
non-empty and its head is an event of the catalog attaining the maximum
magnitude. -/
theorem mainShockHead (df : Catalog) (h : df ≠ []) :
    ∃ ms, (df.filter (fun e => decide (e.magnitude = npMax (df.map Event.magnitude)))).head? = some ms ∧
      ms ∈ df ∧ ms.magnitude = npMax (df.map Event.magnitude) := by
  have hmm : npMax (df.map Event.magnitude) ∈ df.map Event.magnitude := by
    apply npMax_mem
    simp [h]
  rcases List.mem_map.mp hmm with ⟨e0, he0, hmag⟩
  have hfil : e0 ∈ df.filter (fun e => decide (e.magnitude = npMax (df.map Event.magnitude))) := by
    rw [List.mem_filter]
    exact ⟨he0, by simp [hmag]⟩
  rcases hfe : df.filter (fun e => decide (e.magnitude = npMax (df.map Event.magnitude))) with _ | ⟨ms, tl⟩
  · rw [hfe] at hfil
    cases hfil
  · refine ⟨ms, ?_, ?_⟩
    · rw [hfe]
      rfl
    · have hms : ms ∈ df.filter (fun e => decide (e.magnitude = npMax (df.map Event.magnitude))) := by
        rw [hfe]
        exact List.mem_cons_self _ _
      rcases List.mem_filter.mp hms with ⟨h1, h2⟩
      exact ⟨h1, of_decide_eq_true h2⟩

/-- The list `range' 1 n` ends at `n` (with `0` as the default for `n = 0`). -/
theorem range'_one_getLastD : ∀ n : ℕ, (List.range' 1 n).getLastD 0 = n := by
  intro n
  induction n with
  | zero => rfl
  | succ m ih =>
    rw [List.range'_concat, List.getLastD_concat]
    omega

/-! ### Claims C4, C5, C8, C9, C10 -/

/-- C4: the bottom panel of the time-series renderer plots the catalog
sorted ascending by timestamp against the cumulative event index
`1..N`: the x-values are the timestamps of the sorted copy (a permutation
of the catalog's timestamps, in non-decreasing order) and the y-values are
exactly `range(1, N+1)`, a strictly increasing sequence that steps by one
per event and ends at `N`. -/
theorem claim_C4 (df : Catalog) :
    ((create_time_series df).1).bottomX = (sort_values_datetime df).map Event.datetime ∧
    List.Sorted (· ≤ ·) ((create_time_series df).1).bottomX ∧
    (df.map Event.datetime).Perm ((create_time_series df).1).bottomX ∧
    ((create_time_series df).1).bottomY = List.range' 1 df.length ∧
    List.Sorted (· < ·) ((create_time_series df).1).bottomY ∧
    ((create_time_series df).1).bottomY.getLastD 0 = df.length := by
  have hlen : (sort_values_datetime df).length = df.length :=
    List.length_mergeSort df
  have hperm : (sort_values_datetime df).Perm df :=
    List.mergeSort_perm df _
  have hsorted : List.Pairwise (fun a b : Event => decide (a.datetime ≤ b.datetime) = true)
      (sort_values_datetime df) := by
    apply List.sorted_mergeSort
    · intro a b c hab hbc
      simp only [decide_eq_true_eq] at *
      omega
    · intro a b
      simp only [Bool.or_eq_true, decide_eq_true_eq]
      omega
  refine ⟨rfl, ?_, ?_, ?_, ?_, ?_⟩
  · show List.Sorted (· ≤ ·) ((sort_values_datetime df).map Event.datetime)
    exact List.Pairwise.map _ (fun a b hab => by simpa using hab) hsorted
  · exact (hperm.map Event.datetime).symm
  · show List.range' 1 (sort_values_datetime df).length = List.range' 1 df.length
    rw [hlen]
  · show List.Sorted (· < ·) (List.range' 1 (sort_values_datetime df).length)
    exact List.pairwise_lt_range' _ _
  · show (List.range' 1 (sort_values_datetime df).length).getLastD 0 = df.length
    rw [hlen, range'_one_getLastD]

/-- C5: on a non-empty catalog the map renderer's highlighted event is a
catalog event attaining the maximum magnitude: the plotted longitude,
latitude and labelled magnitude are those of an event whose magnitude
equals the catalog's maximum. -/
theorem claim_C5 (avail : Bool) (df : Catalog) (h : df ≠ []) :
    ∃ p, create_map_plot avail df = some p ∧
      ∃ e, e ∈ df ∧ e.magnitude = npMax (df.map Event.magnitude) ∧
        (∀ e' ∈ df, e'.magnitude ≤ npMax (df.map Event.magnitude)) ∧
        p.main_lon = e.longitude ∧ p.main_lat = e.latitude ∧ p.main_mag = e.magnitude := by
  rcases mainShockHead df h with ⟨ms, hhead, hmem, hmag⟩
  have hp : create_map_plot avail df = some
      { projection := avail
        extent := if avail then some (-3, 0, 53.5, 55.5) else none
        xs := df.map Event.longitude
        ys := df.map Event.latitude
        colors := df.map Event.depth_km
        sizes := df.map (fun e => e.magnitude ^ 3 * 10)
        main_lon := ms.longitude
        main_lat := ms.latitude
        main_mag := ms.magnitude } := by
    rw [create_map_plot, hhead]
  exact ⟨_, hp, ms, hmem, hmag,
    fun e' he' => le_npMax_of_mem (List.mem_map_of_mem Event.magnitude he'), rfl, rfl, rfl⟩

/-- C5 witness: the claim instantiated at the literal five-event catalog. -/
theorem claim_C5_witness :
    ∃ p, create_map_plot true litCatalog = some p ∧
      ∃ e, e ∈ litCatalog ∧ e.magnitude = npMax (litCatalog.map Event.magnitude) ∧
        (∀ e' ∈ litCatalog, e'.magnitude ≤ npMax (litCatalog.map Event.magnitude)) ∧
        p.main_lon = e.longitude ∧ p.main_lat = e.latitude ∧ p.main_mag = e.magnitude :=
  claim_C5 true litCatalog (by simp [litCatalog])

/-- C8: the cartopy capability check is the only branch between the two
map-rendering variants: the warning is logged exactly when the capability
is missing, availability never changes whether the renderer succeeds, the
scatter data and main-shock highlight are identical in both variants, and
the only fields availability selects are the projection flag and the fixed
bounding-box extent. -/
theorem claim_C8 (df : Catalog) (avail : Bool) :
    (cartopy_import avail).1 = avail ∧
    ((cartopy_import avail).2).isEmpty = avail ∧
    (create_map_plot true df).map mapPlotData = (create_map_plot false df).map mapPlotData ∧
    (create_map_plot true df).isSome = (create_map_plot false df).isSome ∧
    (create_map_plot avail df).elim True (fun p =>
      p.projection = avail ∧ p.extent = if avail then some (-3, 0, 53.5, 55.5) else none) := by
  refine ⟨by cases avail <;> rfl, by cases avail <;> rfl, ?_, ?_, ?_⟩
  · rcases hh : (df.filter (fun e => decide (e.magnitude = npMax (df.map Event.magnitude)))).head? with _ | ms
    · rw [create_map_plot, hh, create_map_plot, hh]
    · rw [create_map_plot, hh, create_map_plot, hh]
      rfl
  · rcases hh : (df.filter (fun e => decide (e.magnitude = npMax (df.map Event.magnitude)))).head? with _ | ms
    · rw [create_map_plot, hh, create_map_plot, hh]
    · rw [create_map_plot, hh, create_map_plot, hh]
      rfl
  · rcases hh : (df.filter (fun e => decide (e.magnitude = npMax (df.map Event.magnitude)))).head? with _ | ms
    · rw [create_map_plot, hh]
      exact trivial
    · rw [create_map_plot, hh]
      exact ⟨rfl, rfl⟩

/-- C9: the catalog is read-only after loading: the time-series renderer
sorts and extends a fresh copy, so the frame the caller holds after the
call is the one it passed in, and after `main` runs all four renderers in
order the caller's catalog is unchanged (same records, same order, same
columns). -/
theorem claim_C9 (avail : Bool) (df : Catalog) :
    (create_time_series df).2 = df ∧ (main_render avail df).2 = df :=
  ⟨rfl, rfl⟩

/-- C10: on an empty catalog the map renderer (indexing row 0 of the
maximum-magnitude selection) and the magnitude-frequency renderer (taking
the min and max of an empty array) both fail, while on any non-empty
catalog both succeed: the program implicitly requires at least one event,
a precondition the spec does not state. -/
theorem claim_C10 (avail : Bool) (df : Catalog) (h : df ≠ []) :
    create_map_plot avail ([] : Catalog) = none ∧
    create_magnitude_frequency ([] : Catalog) = none ∧
    (create_map_plot avail df).isSome = true ∧
    (create_magnitude_frequency df).isSome = true := by
  refine ⟨rfl, rfl, ?_, ?_⟩
  · rcases mainShockHead df h with ⟨ms, hhead, -, -⟩
    rw [create_map_plot, hhead]
    rfl
  · rw [create_magnitude_frequency]
    have : df.isEmpty = false := by
      rcases df with _ | _
      · exact absurd rfl h
      · rfl
    rw [this]
    rfl

/-- C10 witness: the claim instantiated at the literal five-event catalog. -/
theorem claim_C10_witness :
    create_map_plot true ([] : Catalog) = none ∧
    create_magnitude_frequency ([] : Catalog) = none ∧
    (create_map_plot true litCatalog).isSome = true ∧
    (create_magnitude_frequency litCatalog).isSome = true :=
  claim_C10 true litCatalog (by simp [litCatalog])

/-! ### Claims C6 and C7: the loader -/

/-- C6 counterexample: the claim says a missing required column makes the
loader fail, but on a file whose header lacks only `latitude` the loader
returns a catalog without that column instead of raising. -/
theorem claim_C6_counterexample :
    load_aftershock_data noLatitudeLines = Except.ok
      { cols := ["date", "time", "longitude", "depth_km", "magnitude", "datetime"]
        rows := [["1979-12-26", "03:56:00", "-1.5", "10.0", "4.7"]]
        datetimes := [63641044560] } ∧
    (["date", "time", "longitude", "depth_km", "magnitude", "datetime"].contains ("latitude")) = false := by
  constructor
  · with_unfolding_all rfl
  · with_unfolding_all rfl

/-- C6 (amended): only the `date` and `time` columns are validated at load
time.  If either of them is absent the loader fails with a fatal error
before returning any catalog; but a file missing only one of `latitude`,
`longitude`, `depth_km`, `magnitude` loads successfully into a catalog
lacking that column, and the failure is deferred to the renderers. -/
theorem claim_C6 (lines : List String) (header : String) (dataLines : List String)
    (hbody : lines.filter (fun l => !(isCommentLine l)) = header :: dataLines)
    (hmiss : (splitFields ',' header).findIdx? (fun c => c == "date") = none ∨
             (splitFields ',' header).findIdx? (fun c => c == "time") = none) :
    load_aftershock_data lines = Except.error ("KeyError: date or time column missing") ∧
    (load_aftershock_data noLatitudeLines).isOk = true ∧
    (load_aftershock_data noLatitudeLines).toOption.elim False
      (fun f => (f.cols.contains ("latitude")) = false) := by
  refine ⟨?_, by with_unfolding_all rfl, by with_unfolding_all rfl⟩
  rw [load_aftershock_data, hbody]
  simp only [load_from_body]
  rcases hd : (splitFields ',' header).findIdx? (fun c => c == "date") with _ | di
  · rcases ht : (splitFields ',' header).findIdx? (fun c => c == "time") with _ | ti
    · simp only [load_with_idx]
    · simp only [load_with_idx]
  · rcases ht : (splitFields ',' header).findIdx? (fun c => c == "time") with _ | ti
    · simp only [load_with_idx]
    · rw [hd, ht] at hmiss
      rcases hmiss with h | h <;> simp at h

/-- C6 witness: the amended claim instantiated at the concrete file whose
header is missing the `date` column. -/
theorem claim_C6_witness :
    load_aftershock_data noDateLines = Except.error ("KeyError: date or time column missing") ∧
    (load_aftershock_data noLatitudeLines).isOk = true ∧
    (load_aftershock_data noLatitudeLines).toOption.elim False
      (fun f => (f.cols.contains ("latitude")) = false) :=
  claim_C6 noDateLines ("time,latitude,longitude,depth_km,magnitude")
    (["03:56:00,54.1,-1.5,10.0,4.7"])
    (by with_unfolding_all rfl)
    (Or.inl (by with_unfolding_all rfl))

/-- C7: on an input whose non-comment part is a header followed by `N`
well-formed data rows (the combined `date`/`time` field of every row
parses), the loader returns a catalog of exactly `N` records whose
`datetime` column holds, row by row, the timestamp parsed from that row's
`date` and `time` fields. -/
theorem claim_C7 (lines : List String) (header : String) (dataLines : List String) (di ti : ℕ)
    (hbody : lines.filter (fun l => !(isCommentLine l)) = header :: dataLines)
    (hdi : (splitFields ',' header).findIdx? (fun c => c == "date") = some di)
    (hti : (splitFields ',' header).findIdx? (fun c => c == "time") = some ti)
    (hparse : ∀ l ∈ dataLines,
      (parseDT (((splitFields ',' l).getD di (String.mk [])) ++ (String.mk [' ']) ++
        ((splitFields ',' l).getD ti (String.mk [])))).isSome = true) :
    load_aftershock_data lines = Except.ok
      { cols := splitFields ',' header ++ ["datetime"]
        rows := dataLines.map (fun l => splitFields ',' l)
        datetimes := dataLines.map (fun l =>
          (parseDT (((splitFields ',' l).getD di (String.mk [])) ++ (String.mk [' ']) ++
            ((splitFields ',' l).getD ti (String.mk [])))).getD 0) } ∧
    (dataLines.map (fun l => splitFields ',' l)).length = dataLines.length ∧
    (dataLines.map (fun l =>
      (parseDT (((splitFields ',' l).getD di (String.mk [])) ++ (String.mk [' ']) ++
        ((splitFields ',' l).getD ti (String.mk [])))).getD 0)).length = dataLines.length := by
  refine ⟨?_, List.length_map _ _, List.length_map _ _⟩
  rw [load_aftershock_data, hbody]
  simp only [load_from_body]
  rw [hdi, hti]
  simp only [load_with_idx]
  have hall : ((dataLines.map (fun l => splitFields ',' l)).map (fun r =>
      parseDT ((r.getD di (String.mk [])) ++ (String.mk [' ']) ++ (r.getD ti (String.mk []))))).all
        (fun o => o.isSome) = true := by
    rw [List.all_eq_true]
    intro o ho
    rcases List.mem_map.mp ho with ⟨r, hr, rfl⟩
    rcases List.mem_map.mp hr with ⟨l, hl, rfl⟩
    exact hparse l hl
  rw [hall]
  simp only [if_true, List.map_map]
  rfl

/-- C7 witness: the claim instantiated at the concrete four-line sample
file (one comment line, a full header, two well-formed data rows). -/
theorem claim_C7_witness :
    load_aftershock_data sampleLines = Except.ok
      { cols := splitFields ',' ("date,time,latitude,longitude,depth_km,magnitude") ++ ["datetime"]
        rows := (["1979-12-26,03:56:00,54.1,-1.5,10.0,4.7",
                  "1979-12-26,04:10:30,54.2,-1.6,8.5,2.1"]).map (fun l => splitFields ',' l)
        datetimes := (["1979-12-26,03:56:00,54.1,-1.5,10.0,4.7",
                  "1979-12-26,04:10:30,54.2,-1.6,8.5,2.1"]).map (fun l =>
          (parseDT (((splitFields ',' l).getD 0 (String.mk [])) ++ (String.mk [' ']) ++
            ((splitFields ',' l).getD 1 (String.mk [])))).getD 0) } ∧
    ((["1979-12-26,03:56:00,54.1,-1.5,10.0,4.7",
       "1979-12-26,04:10:30,54.2,-1.6,8.5,2.1"]).map (fun l => splitFields ',' l)).length =
      (["1979-12-26,03:56:00,54.1,-1.5,10.0,4.7",
        "1979-12-26,04:10:30,54.2,-1.6,8.5,2.1"]).length ∧
    ((["1979-12-26,03:56:00,54.1,-1.5,10.0,4.7",
       "1979-12-26,04:10:30,54.2,-1.6,8.5,2.1"]).map (fun l =>
      (parseDT (((splitFields ',' l).getD 0 (String.mk [])) ++ (String.mk [' ']) ++
        ((splitFields ',' l).getD 1 (String.mk [])))).getD 0)).length =
      (["1979-12-26,03:56:00,54.1,-1.5,10.0,4.7",
        "1979-12-26,04:10:30,54.2,-1.6,8.5,2.1"]).length :=
  claim_C7 sampleLines ("date,time,latitude,longitude,depth_km,magnitude")
    (["1979-12-26,03:56:00,54.1,-1.5,10.0,4.7", "1979-12-26,04:10:30,54.2,-1.6,8.5,2.1"])
    0 1
    (by with_unfolding_all rfl)
    (by with_unfolding_all rfl)
    (by with_unfolding_all rfl)
    (by
      intro l hl
      simp only [List.mem_cons, List.mem_singleton, List.not_mem_nil, or_false] at hl
      rcases hl with rfl | rfl
      · with_unfolding_all rfl
      · with_unfolding_all rfl)

/-! ### List-level lemmas for the histogram and the cumulative counts -/

theorem cumsum_append (xs : List ℕ) (y : ℕ) :
    cumsum (xs ++ [y]) = cumsum xs ++ [xs.sum + y] := by
  induction xs with
  | nil => simp [cumsum]
  | cons a t ih =>
    have h1 : cumsum ((a :: t) ++ [y]) = a :: (cumsum (t ++ [y])).map (fun x => a + x) := rfl
    have h2 : cumsum (a :: t) = a :: (cumsum t).map (fun x => a + x) := rfl
    rw [h1, h2, ih, List.map_append]
    simp [Nat.add_assoc]

theorem revCumsum_cons (a : ℕ) (t : List ℕ) :
    revCumsum (a :: t) = (a + t.sum) :: revCumsum t := by
  rw [revCumsum, List.reverse_cons, cumsum_append, List.reverse_append, revCumsum]
  simp [List.sum_reverse, Nat.add_comm]

theorem revCumsum_eq_map : ∀ l : List ℕ,
    revCumsum l = (List.range l.length).map (fun i => (l.drop i).sum)
  | [] => rfl
  | a :: t => by
    rw [revCumsum_cons, revCumsum_eq_map t, List.length_cons, List.range_succ_eq_map,
      List.map_cons, List.map_map]
    rfl

theorem drop_sum_le : ∀ (l : List ℕ) (k : ℕ), (l.drop k).sum ≤ l.sum
  | _, 0 => le_refl _
  | [], _ + 1 => by simp
  | a :: t, k + 1 => le_trans (drop_sum_le t k) (Nat.le_add_left _ _)

theorem drop_sum_mono (l : List ℕ) {i j : ℕ} (hij : i ≤ j) :
    (l.drop j).sum ≤ (l.drop i).sum := by
  have hd : l.drop j = (l.drop i).drop (j - i) := by
    rw [List.drop_drop]
    congr 1
    omega
  rw [hd]
  exact drop_sum_le _ _

theorem revCumsum_antitone (l : List ℕ) :
    List.Pairwise (fun a b => b ≤ a) (revCumsum l) := by
  rw [revCumsum_eq_map, List.pairwise_map]
  exact List.Pairwise.imp (fun hij => drop_sum_mono l (le_of_lt hij))
    (List.pairwise_lt_range l.length)

theorem range'_drop : ∀ (n s i : ℕ), (List.range' s n).drop i = List.range' (s + i) (n - i)
  | n, s, 0 => by simp
  | 0, s, i + 1 => by simp
  | n + 1, s, i + 1 => by
    rw [List.range'_succ, List.drop_succ_cons, range'_drop n (s + 1) i]
    congr 1 <;> omega

theorem range_drop (m i : ℕ) : (List.range m).drop i = List.range' i (m - i) := by
  rw [List.range_eq_range', range'_drop]
  simp

theorem countP_eq_sum_map {α : Type} (l : List α) (p : α → Bool) :
    l.countP p = (l.map (fun v => if p v then 1 else 0)).sum := by
  induction l with
  | nil => rfl
  | cons a t ih =>
    rw [List.countP_cons, List.map_cons, List.sum_cons, ih]
    cases hp : p a <;> simp [Nat.add_comm]

theorem sum_map_add {α : Type} (l : List α) (f g : α → ℕ) :
    (l.map (fun x => f x + g x)).sum = (l.map f).sum + (l.map g).sum := by
  induction l with
  | nil => rfl
  | cons a t ih =>
    simp only [List.map_cons, List.sum_cons, ih]
    omega

theorem sum_countP_swap (l : List ℚ) (is : List ℕ) (p : ℕ → ℚ → Bool) :
    (is.map (fun i => l.countP (p i))).sum = (l.map (fun v => is.countP (fun i => p i v))).sum := by
  induction is with
  | nil =>
    simp only [List.map_nil, List.sum_nil, List.countP_nil]
    exact (List.sum_eq_zero (by simp)).symm
  | cons i is' ih =>
    rw [List.map_cons, List.sum_cons, ih]
    have hpt : ∀ v ∈ l, List.countP (fun j => p j v) (i :: is') =
        (if p i v then 1 else 0) + List.countP (fun j => p j v) is' := by
      intro v _
      rw [List.countP_cons]
      cases hp : p i v <;> simp [Nat.add_comm]
    rw [List.map_congr_left hpt, sum_map_add, ← countP_eq_sum_map]

theorem sum_map_one (l : List ℚ) : (l.map (fun _ => 1)).sum = l.length := by
  induction l with
  | nil => rfl
  | cons a t ih => simp [ih, Nat.add_comm]

/-! ### Structure of the bin edge sequence -/

theorem floor_min_le_ceil_max (df : Catalog) (h : df ≠ []) :
    ⌊npMin (df.map Event.magnitude)⌋ ≤ ⌈npMax (df.map Event.magnitude)⌉ := by
  rcases df with _ | ⟨e, es⟩
  · exact absurd rfl h
  · have h1 : e.magnitude ∈ (e :: es).map Event.magnitude := by simp
    have h2 : npMin ((e :: es).map Event.magnitude) ≤ e.magnitude := npMin_le_of_mem h1
    have h3 : e.magnitude ≤ npMax ((e :: es).map Event.magnitude) := le_npMax_of_mem h1
    have h4 := (Int.floor_le (npMin ((e :: es).map Event.magnitude))).trans
      (h2.trans (h3.trans (Int.le_ceil (npMax ((e :: es).map Event.magnitude)))))
    exact_mod_cast h4

theorem binEdges_eq (df : Catalog) :
    binEdges df = (List.range (numEdges df)).map (fun (k : ℕ) => lowEdge df + (k : ℚ) * (1/5)) := by
  simp only [binEdges, arange, numEdges, lowEdge]
  congr 2
  have hq : (((⌈npMax (df.map Event.magnitude)⌉ : ℤ) : ℚ) + 1/2 -
      (((⌊npMin (df.map Event.magnitude)⌋ : ℤ) : ℚ) - 1/2)) / (1/5) =
      ((5 * (⌈npMax (df.map Event.magnitude)⌉ - ⌊npMin (df.map Event.magnitude)⌋ + 1) : ℤ) : ℚ) := by
    push_cast
    ring
  rw [hq, Int.ceil_intCast]

theorem binEdges_length (df : Catalog) : (binEdges df).length = numEdges df := by
  rw [binEdges_eq]
  simp

theorem numEdges_cast (df : Catalog) (h : df ≠ []) :
    (numEdges df : ℤ) = 5 * (⌈npMax (df.map Event.magnitude)⌉ - ⌊npMin (df.map Event.magnitude)⌋ + 1) := by
  have hFC := floor_min_le_ceil_max df h
  exact Int.toNat_of_nonneg (by omega)

theorem binEdges_getD (df : Catalog) {k : ℕ} (hk : k < numEdges df) :
    (binEdges df).getD k 0 = lowEdge df + (k : ℚ) * (1/5) := by
  rw [binEdges_eq, List.getD_eq_getElem?_getD, List.getElem?_map, List.getElem?_range hk]
  rfl

theorem binEdges_getLast (df : Catalog) (h : df ≠ []) :
    (binEdges df).getLast? = some ((⌈npMax (df.map Event.magnitude)⌉ : ℚ) + 3/10) := by
  have hFC := floor_min_le_ceil_max df h
  have hcast := numEdges_cast df h
  have hge : 5 ≤ numEdges df := by omega
  have hlt : numEdges df - 1 < numEdges df := by omega
  rw [List.getLast?_eq_getElem?, binEdges_length, binEdges_eq, List.getElem?_map,
    List.getElem?_range hlt]
  have hc2 : (numEdges df : ℚ) = 5 * ((⌈npMax (df.map Event.magnitude)⌉ : ℚ) -
      (⌊npMin (df.map Event.magnitude)⌋ : ℚ) + 1) := by
    exact_mod_cast hcast
  have hc1 : ((numEdges df - 1 : ℕ) : ℚ) = (numEdges df : ℚ) - 1 := by
    have : (1 : ℕ) ≤ numEdges df := by omega
    push_cast [this]
    ring
  have hms : Option.map (fun (k : ℕ) => lowEdge df + (k : ℚ) * (1/5)) (some (numEdges df - 1)) =
      some (lowEdge df + ((numEdges df - 1 : ℕ) : ℚ) * (1/5)) := rfl
  rw [hms]
  congr 1
  rw [lowEdge, hc1, hc2]
  ring

/-! ### Locating a magnitude in the bin sequence -/

theorem mem_le_bounds (df : Catalog) {v : ℚ} (hv : v ∈ df.map Event.magnitude) :
    lowEdge df + 1/2 ≤ v ∧ v ≤ (⌈npMax (df.map Event.magnitude)⌉ : ℚ) := by
  constructor
  · have h1 : ((⌊npMin (df.map Event.magnitude)⌋ : ℤ) : ℚ) ≤ npMin (df.map Event.magnitude) :=
      Int.floor_le _
    have h2 := npMin_le_of_mem hv
    rw [lowEdge]
    linarith
  · exact (le_npMax_of_mem hv).trans (Int.le_ceil _)

theorem floor_idx_bounds (df : Catalog) (h : df ≠ []) {v : ℚ} (hv : v ∈ df.map Event.magnitude) :
    0 ≤ ⌊(v - lowEdge df) * 5⌋ ∧ ⌊(v - lowEdge df) * 5⌋ < (numEdges df : ℤ) - 1 := by
  obtain ⟨hlo, hhi⟩ := mem_le_bounds df hv
  constructor
  · rw [Int.floor_nonneg]
    nlinarith
  · rw [Int.floor_lt]
    have hc2 : (numEdges df : ℚ) = 5 * ((⌈npMax (df.map Event.magnitude)⌉ : ℚ) -
        (⌊npMin (df.map Event.magnitude)⌋ : ℚ) + 1) := by
      exact_mod_cast numEdges_cast df h
    have hle : lowEdge df = (⌊npMin (df.map Event.magnitude)⌋ : ℚ) - 1/2 := rfl
    push_cast
    nlinarith

theorem bin_mem_iff (df : Catalog) {v : ℚ} (i : ℕ) (hi : i + 1 < numEdges df) :
    ((binEdges df).getD i 0 ≤ v ∧ v < (binEdges df).getD (i + 1) 0) ↔
      (i : ℤ) = ⌊(v - lowEdge df) * 5⌋ := by
  rw [binEdges_getD df (by omega : i < numEdges df), binEdges_getD df hi]
  rw [eq_comm, Int.floor_eq_iff]
  constructor
  · rintro ⟨h1, h2⟩
    constructor
    · push_cast
      nlinarith
    · push_cast
      push_cast at h2
      nlinarith
  · rintro ⟨h1, h2⟩
    constructor
    · push_cast at h1
      nlinarith
    · push_cast
      push_cast at h2
      nlinarith

/-! ### The histogram counts each magnitude into exactly one bin -/

theorem histBin_eq_floor (df : Catalog) (h : df ≠ []) (i : ℕ) (hi : i < numEdges df - 1) :
    histBinCount (df.map Event.magnitude) (binEdges df) i =
      (df.map Event.magnitude).countP (fun v => decide ((i : ℤ) = ⌊(v - lowEdge df) * 5⌋)) := by
  rw [histBinCount]
  apply List.countP_congr
  intro v hv
  rw [binEdges_length]
  have hi1 : i + 1 < numEdges df := by omega
  by_cases hc : i + 2 < numEdges df
  · rw [if_pos hc]
    simp only [Bool.and_eq_true, decide_eq_true_eq]
    exact bin_mem_iff df i hi1
  · rw [if_neg hc]
    simp only [Bool.and_eq_true, decide_eq_true_eq]
    have hvlt : v < (binEdges df).getD (i + 1) 0 := by
      obtain ⟨-, hb1⟩ := floor_idx_bounds df h hv
      rw [Int.floor_lt] at hb1
      rw [binEdges_getD df hi1]
      have hieq : (i : ℚ) + 1 = (numEdges df : ℚ) - 1 := by
        have : i + 2 = numEdges df := by omega
        have := congrArg (fun n : ℕ => (n : ℚ)) this
        push_cast at this
        linarith
      push_cast
      push_cast at hb1
      nlinarith
    constructor
    · rintro ⟨h1, -⟩
      exact (bin_mem_iff df i hi1).mp ⟨h1, hvlt⟩
    · intro hf
      obtain ⟨h1, h2⟩ := (bin_mem_iff df i hi1).mpr hf
      exact ⟨h1, le_of_lt h2⟩

theorem countP_floor_range (df : Catalog) (h : df ≠ []) {v : ℚ}
    (hv : v ∈ df.map Event.magnitude) :
    (List.range (numEdges df - 1)).countP
      (fun (i : ℕ) => decide ((i : ℤ) = ⌊(v - lowEdge df) * 5⌋)) = 1 := by
  obtain ⟨hb0, hb1⟩ := floor_idx_bounds df h hv
  have hjn : ((⌊(v - lowEdge df) * 5⌋.toNat : ℤ)) = ⌊(v - lowEdge df) * 5⌋ :=
    Int.toNat_of_nonneg hb0
  have hlt : ⌊(v - lowEdge df) * 5⌋.toNat < numEdges df - 1 := by omega
  have hcong : (List.range (numEdges df - 1)).countP
      (fun (i : ℕ) => decide ((i : ℤ) = ⌊(v - lowEdge df) * 5⌋)) =
      (List.range (numEdges df - 1)).countP (fun (i : ℕ) => i == ⌊(v - lowEdge df) * 5⌋.toNat) := by
    apply List.countP_congr
    intro i _
    simp only [decide_eq_true_eq, beq_iff_eq]
    omega
  rw [hcong, ← List.count_eq_countP]
  exact List.count_eq_one_of_mem (List.nodup_range _) (List.mem_range.mpr hlt)

theorem histogram_eq_floor (df : Catalog) (h : df ≠ []) :
    histogram (df.map Event.magnitude) (binEdges df) =
      (List.range (numEdges df - 1)).map (fun (i : ℕ) =>
        (df.map Event.magnitude).countP (fun v => decide ((i : ℤ) = ⌊(v - lowEdge df) * 5⌋))) := by
  rw [histogram, binEdges_length]
  exact List.map_congr_left (fun i hi => histBin_eq_floor df h i (List.mem_range.mp hi))

theorem hist_sum_eq (df : Catalog) (h : df ≠ []) :
    (histogram (df.map Event.magnitude) (binEdges df)).sum = df.length := by
  rw [histogram_eq_floor df h, sum_countP_swap]
  rw [List.map_congr_left (fun v hv => countP_floor_range df h hv)]
  rw [sum_map_one, List.length_map]

/-! ### The cumulative counts count events at or above each lower edge -/

theorem countP_floor_range' (df : Catalog) (h : df ≠ []) {v : ℚ}
    (hv : v ∈ df.map Event.magnitude) (i : ℕ) (hi : i < numEdges df - 1) :
    (List.range' i (numEdges df - 1 - i)).countP
      (fun (j : ℕ) => decide ((j : ℤ) = ⌊(v - lowEdge df) * 5⌋)) =
      if (binEdges df).getD i 0 ≤ v then 1 else 0 := by
  obtain ⟨hb0, hb1⟩ := floor_idx_bounds df h hv
  by_cases he : (binEdges df).getD i 0 ≤ v
  · rw [if_pos he]
    have hig : (i : ℤ) ≤ ⌊(v - lowEdge df) * 5⌋ := by
      rw [Int.le_floor]
      rw [binEdges_getD df (by omega : i < numEdges df)] at he
      push_cast
      nlinarith
    have hjn : ((⌊(v - lowEdge df) * 5⌋.toNat : ℤ)) = ⌊(v - lowEdge df) * 5⌋ :=
      Int.toNat_of_nonneg hb0
    have hmem : ⌊(v - lowEdge df) * 5⌋.toNat ∈ List.range' i (numEdges df - 1 - i) := by
      rw [List.mem_range'_1]
      omega
    have hcong : (List.range' i (numEdges df - 1 - i)).countP
        (fun (j : ℕ) => decide ((j : ℤ) = ⌊(v - lowEdge df) * 5⌋)) =
        (List.range' i (numEdges df - 1 - i)).countP
          (fun (j : ℕ) => j == ⌊(v - lowEdge df) * 5⌋.toNat) := by
      apply List.countP_congr
      intro j _
      simp only [decide_eq_true_eq, beq_iff_eq]
      omega
    rw [hcong, ← List.count_eq_countP]
    exact List.count_eq_one_of_mem (List.nodup_range' _ _) hmem
  · rw [if_neg he]
    rw [List.countP_eq_zero]
    intro j hj
    rw [List.mem_range'_1] at hj
    simp only [decide_eq_true_eq]
    intro hjz
    have hvi : v < (binEdges df).getD i 0 := lt_of_not_le he
    have hflt : ⌊(v - lowEdge df) * 5⌋ < (i : ℤ) := by
      rw [Int.floor_lt]
      rw [binEdges_getD df (by omega : i < numEdges df)] at hvi
      push_cast
      nlinarith
    omega

theorem cum_counts_eq (df : Catalog) (h : df ≠ []) :
    revCumsum (histogram (df.map Event.magnitude) (binEdges df)) =
      (List.range (numEdges df - 1)).map (fun i =>
        (df.map Event.magnitude).countP (fun v => decide ((binEdges df).getD i 0 ≤ v))) := by
  rw [revCumsum_eq_map]
  have hlen : (histogram (df.map Event.magnitude) (binEdges df)).length = numEdges df - 1 := by
    rw [histogram, binEdges_length]
    simp
  rw [hlen]
  apply List.map_congr_left
  intro i hi
  have hi' : i < numEdges df - 1 := List.mem_range.mp hi
  rw [histogram_eq_floor df h, ← List.map_drop, range_drop, sum_countP_swap,
    countP_eq_sum_map]
  refine congrArg List.sum (List.map_congr_left ?_)
  intro v hv
  rw [countP_floor_range' df h hv i hi']
  simp

/-! ### Claims C1, C2, C3 -/

/-- C1 counterexample: for the literal catalog the bin edges do not reach
`ceil(max) + 0.5`.  Here `ceil(max) = 5`, the claimed top edge is `5.5`,
but `np.arange` excludes its stop value: `5.5` is not an edge and the
greatest edge is `5.3`. -/
theorem claim_C1_counterexample :
    (binEdges litCatalog).getLast? = some (53/10) ∧
    ⌈npMax (litCatalog.map Event.magnitude)⌉ = 5 ∧
    (decide (((⌈npMax (litCatalog.map Event.magnitude)⌉ : ℚ) + 1/2) ∈ binEdges litCatalog)) = false ∧
    (decide ((53 : ℚ)/10 < (⌈npMax (litCatalog.map Event.magnitude)⌉ : ℚ) + 1/2)) = true := by
  refine ⟨?_, ?_, ?_, ?_⟩ <;> with_unfolding_all rfl

/-- C1 (amended): for every non-empty catalog the bin edges are the
fixed-pitch-`0.2` sequence starting at `floor(min) - 0.5` and stopping
before `ceil(max) + 0.5` (the greatest edge is `ceil(max) + 0.3`, since
`np.arange` excludes its stop); with this binning, the literal catalog
with magnitudes `[2.0, 2.5, 3.0, 3.0, 4.1]` has exactly the stated per-bin
histogram counts and cumulative counts. -/
theorem claim_C1 (df : Catalog) (h : df ≠ []) :
    ∃ p, create_magnitude_frequency df = some p ∧
      p.bins = (List.range (numEdges df)).map (fun (k : ℕ) => lowEdge df + (k : ℚ) * (1/5)) ∧
      p.bins.getLast? = some ((⌈npMax (df.map Event.magnitude)⌉ : ℚ) + 3/10) ∧
      (create_magnitude_frequency litCatalog).map (fun q => q.hist) =
        some [0, 0, 1, 0, 0, 1, 0, 2, 0, 0, 0, 0, 0, 1, 0, 0, 0, 0, 0] ∧
      (create_magnitude_frequency litCatalog).map (fun q => q.cum_counts) =
        some [5, 5, 5, 4, 4, 4, 3, 3, 1, 1, 1, 1, 1, 1, 0, 0, 0, 0, 0] := by
  have hlit1 : (create_magnitude_frequency litCatalog).map (fun q => q.hist) =
      some [0, 0, 1, 0, 0, 1, 0, 2, 0, 0, 0, 0, 0, 1, 0, 0, 0, 0, 0] := by
    with_unfolding_all rfl
  have hlit2 : (create_magnitude_frequency litCatalog).map (fun q => q.cum_counts) =
      some [5, 5, 5, 4, 4, 4, 3, 3, 1, 1, 1, 1, 1, 1, 0, 0, 0, 0, 0] := by
    with_unfolding_all rfl
  rcases df with _ | ⟨e, es⟩
  · exact absurd rfl h
  · exact ⟨_, rfl, binEdges_eq (e :: es), binEdges_getLast (e :: es) (List.cons_ne_nil e es),
      hlit1, hlit2⟩

/-- C1 witness: the amended claim instantiated at the literal catalog. -/
theorem claim_C1_witness :
    ∃ p, create_magnitude_frequency litCatalog = some p ∧
      p.bins = (List.range (numEdges litCatalog)).map
        (fun (k : ℕ) => lowEdge litCatalog + (k : ℚ) * (1/5)) ∧
      p.bins.getLast? = some ((⌈npMax (litCatalog.map Event.magnitude)⌉ : ℚ) + 3/10) ∧
      (create_magnitude_frequency litCatalog).map (fun q => q.hist) =
        some [0, 0, 1, 0, 0, 1, 0, 2, 0, 0, 0, 0, 0, 1, 0, 0, 0, 0, 0] ∧
      (create_magnitude_frequency litCatalog).map (fun q => q.cum_counts) =
        some [5, 5, 5, 4, 4, 4, 3, 3, 1, 1, 1, 1, 1, 1, 0, 0, 0, 0, 0] :=
  claim_C1 litCatalog (by simp [litCatalog])

/-- C2: for every non-empty catalog of `N` events the per-bin histogram
counts of the magnitude-frequency renderer sum to `N`: every event's
magnitude falls into exactly one bin of the constructed sequence. -/
theorem claim_C2 (df : Catalog) (h : df ≠ []) :
    ∃ p, create_magnitude_frequency df = some p ∧ p.hist.sum = df.length := by
  rcases df with _ | ⟨e, es⟩
  · exact absurd rfl h
  · exact ⟨_, rfl, hist_sum_eq (e :: es) (List.cons_ne_nil e es)⟩

/-- C2 witness: the claim instantiated at the literal catalog. -/
theorem claim_C2_witness :
    ∃ p, create_magnitude_frequency litCatalog = some p ∧ p.hist.sum = litCatalog.length :=
  claim_C2 litCatalog (by simp [litCatalog])

/-- C3: for every non-empty catalog the reversed-cumulative
Gutenberg-Richter counts are non-increasing in the bin index, and entry
`i` equals the number of events whose magnitude is at or above bin `i`'s
lower edge. -/
theorem claim_C3 (df : Catalog) (h : df ≠ []) :
    ∃ p, create_magnitude_frequency df = some p ∧
      p.cum_counts = (List.range (numEdges df - 1)).map (fun i =>
        (df.map Event.magnitude).countP (fun v => decide ((binEdges df).getD i 0 ≤ v))) ∧
      List.Pairwise (fun a b => b ≤ a) p.cum_counts := by
  rcases df with _ | ⟨e, es⟩
  · exact absurd rfl h
  · exact ⟨_, rfl, cum_counts_eq (e :: es) (List.cons_ne_nil e es), revCumsum_antitone _⟩

/-- C3 witness: the claim instantiated at the literal catalog. -/
theorem claim_C3_witness :
    ∃ p, create_magnitude_frequency litCatalog = some p ∧
      p.cum_counts = (List.range (numEdges litCatalog - 1)).map (fun i =>
        (litCatalog.map Event.magnitude).countP
          (fun v => decide ((binEdges litCatalog).getD i 0 ≤ v))) ∧
      List.Pairwise (fun a b => b ≤ a) p.cum_counts :=
  claim_C3 litCatalog (by simp [litCatalog])

end Aftershocks
